import Mathlib

/-!
Shallow embedding of the expense normalization and reconciliation engine of
`app/main.py` (Splitwise Telegram connector).

Modelling conventions:
* Python values that can be an `int` or a `str` (names, ids) are modelled by
  the inductive `PyVal`; Python `==` between an int and a str is `False`,
  which the derived decidable equality on `PyVal` reproduces.
* Monetary amounts are modelled as exact rationals (`ℚ`); the source performs
  the same arithmetic in IEEE floats with an explicit `0.01` epsilon.
* Python dicts keyed by `str(uid)` are modelled as association lists
  (`ShareMap`) where an update replaces the first matching key and a fresh key
  is appended at the end, exactly like insertion order in a Python dict.
* `str.lower` / `str.strip` / substring containment (`in`) are modelled on
  the underlying character lists (ASCII-faithful).
* A fallible Python function raising `HTTPException` is modelled as
  `Except NormError _`.
-/

/-- A Python value that is either an `int` or a `str` (participant names and
ids in the source can be either). -/
inductive PyVal where
  | int (n : Int)
  | str (s : String)
  deriving DecidableEq, Repr

/-- Python truthiness for `PyVal`: `0` and `""` are falsy. -/
def pyTruthy : PyVal → Bool
  | .int n => n ≠ 0
  | .str s => s ≠ ""

/-- Python `str(v)`. -/
def pyStr : PyVal → String
  | .int n => toString n
  | .str s => s

/-- Python `s.lower()` (ASCII model, per-character). -/
def pyLower (s : String) : String := ⟨s.data.map Char.toLower⟩

/-- Python `s.strip()`: drop whitespace from both ends. -/
def pyStrip (s : String) : String :=
  ⟨((s.data.dropWhile Char.isWhitespace).reverse.dropWhile Char.isWhitespace).reverse⟩

/-- Does `hay` start with `needle`? (helper for substring containment). -/
def startsList : List Char → List Char → Bool
  | [], _ => true
  | _ :: _, [] => false
  | c :: cs, d :: ds => c = d && startsList cs ds

/-- Python `needle in hay` substring containment on character lists. -/
def subList : List Char → List Char → Bool
  | needle, [] => needle.isEmpty
  | needle, c :: cs => startsList needle (c :: cs) || subList needle cs

/-- Python `needle in hay` on strings. -/
def strIn (needle hay : String) : Bool := subList needle.data hay.data

/-- A Splitwise friend record as used by the source: `id` plus optional
`first_name` / `last_name` keys. -/
structure Friend where
  id : PyVal
  first_name : Option String
  last_name : Option String
  deriving DecidableEq, Repr

/-- Truthiness of the optional `self_user_id` argument (`if self_user_id:`). -/
def selfIdTruthy : Option Int → Bool
  | some n => n ≠ 0
  | none => false

/-- Truthiness of the optional `self_name` argument (`if self_name:`). -/
def selfNameTruthy : Option String → Bool
  | some s => s ≠ ""
  | none => false

/-- The list `self_names` built in `match_name_to_user_id`:
`["me","mine","self","i"]` plus `self_name.lower()` when `self_name` is
truthy. -/
def selfNames (self_name : Option String) : List String :=
  ["me", "mine", "self", "i"] ++
    (match self_name with
     | some sn => if sn = "" then [] else [pyLower sn]
     | none => [])

/-- The friend-id scan of the integer branch of `match_name_to_user_id`:
`for friend in friends: if name == friend.get("id"): return name`. -/
def findFriendById : List Friend → Int → Option PyVal
  | [], _ => none
  | f :: fs, n => if f.id = .int n then some (.int n) else findFriendById fs n

/-- The roster scan of the string branch of `match_name_to_user_id`: first
friend whose lowercased first or last name contains the normalized input as a
substring wins. -/
def findFriendByName : List Friend → String → Option PyVal
  | [], _ => none
  | f :: fs, nm =>
    if strIn nm (pyLower (f.first_name.getD "")) || strIn nm (pyLower (f.last_name.getD ""))
    then some f.id
    else findFriendByName fs nm

/-- Model of `match_name_to_user_id(name, friends, self_user_id, self_name)` from
`app/main.py` lines 277-300. Returns the resolved id or `none` (Python
`None`). -/
def match_name_to_user_id (name : PyVal) (friends : List Friend)
    (self_user_id : Option Int) (self_name : Option String) : Option PyVal :=
  match name with
  | .int n =>
    if selfIdTruthy self_user_id ∧ self_user_id = some n then some (.int n)
    else findFriendById friends n
  | .str s =>
    let nm := pyStrip (pyLower s)
    if selfIdTruthy self_user_id ∧ nm ∈ selfNames self_name then
      self_user_id.map PyVal.int
    else if selfNameTruthy self_name ∧ some nm = self_name.map pyLower then
      self_user_id.map PyVal.int
    else findFriendByName friends nm

/-- The `shares` dict of the source: keys are `str(uid)`, values are amounts.
Modelled as an association list in Python-dict insertion order. -/
abbrev ShareMap := List (String × ℚ)

/-- Python `shares.get(k)` (first entry with the key, if any). -/
def dget : ShareMap → String → Option ℚ
  | [], _ => none
  | (k', v) :: rest, k => if k' = k then some v else dget rest k

/-- Python `shares[k] = v`: replace the value at an existing key in place,
otherwise append the new key at the end. -/
def dset : ShareMap → String → ℚ → ShareMap
  | [], k, v => [(k, v)]
  | (k', v') :: rest, k, v =>
    if k' = k then (k, v) :: rest else (k', v') :: dset rest k v

/-- Python `sum(shares.values())`. -/
def sumVals (m : ShareMap) : ℚ := (m.map Prod.snd).sum

/-- One entry of the draft's `participants` list. `name` is
`Option (Option PyVal)`: the outer `none` models an absent `"name"` key
(`part["name"]` raises `KeyError`), `some none` models a JSON null, and
`part.get("name")` conflates both to `None`. `fakeId` models the optional
`"id"` key set by the new-friend flow (`part.get("id", ...)`). -/
structure DraftPart where
  name : Option (Option PyVal)
  share : Option ℚ
  fakeId : Option PyVal
  deriving DecidableEq, Repr

/-- Python `part.get("name")`. -/
def DraftPart.getName (p : DraftPart) : Option PyVal := p.name.join

/-- The untrusted draft expense produced by the extraction step, as read by
`normalize_expense` via `parsed.get(...)`. -/
structure Draft where
  payer : Option PyVal
  participants : List DraftPart
  amount : Option ℚ
  description : Option String
  currency : Option String
  deriving DecidableEq, Repr

/-- The error kinds `normalize_expense` raises as `HTTPException`s. -/
inductive NormError where
  | malformedDraft
  | missingPayer
  | unresolvedPayer (name : PyVal)
  | missingParticipantName
  | pendingNewFriend (name : PyVal)
  | missingAmount
  | sharesExceedCost
  deriving DecidableEq, Repr

/-- Result of the participant loop of `normalize_expense` (lines 317-331):
either a participant had no name (immediate raise), or the loop finished with
the accumulated `owed_by` / `shares` and, when it `break`-ed on an
unresolvable name, that name. -/
inductive LoopResult where
  | nameMissing
  | finished (owed : List PyVal) (shares : ShareMap) (unknown : Option PyVal)
  deriving DecidableEq, Repr

/-- The participant loop of `normalize_expense`: resolve each name, `break`
on the first unresolvable one (unless `allow_fake_id`, in which case the
participant's `"id"` key or `"new:<name>"` is used), append the id to
`owed_by` and record an explicit share under `str(uid)`. -/
def partLoop (friends : List Friend) (self_user_id : Int) (self_name : Option String)
    (allow_fake_id : Bool) : List DraftPart → List PyVal → ShareMap → LoopResult
  | [], owed, shares => .finished owed shares none
  | p :: rest, owed, shares =>
    match p.getName with
    | none => .nameMissing
    | some nm =>
      match match_name_to_user_id nm friends (some self_user_id) self_name with
      | some uid =>
        partLoop friends self_user_id self_name allow_fake_id rest (owed ++ [uid])
          (match p.share with
           | some sh => dset shares (pyStr uid) sh
           | none => shares)
      | none =>
        if allow_fake_id then
          let uid := p.fakeId.getD (.str ("new:" ++ pyStr nm))
          partLoop friends self_user_id self_name allow_fake_id rest (owed ++ [uid])
            (match p.share with
             | some sh => dset shares (pyStr uid) sh
             | none => shares)
        else .finished owed shares (some nm)

/-- The fully resolved expense dict returned by `normalize_expense`. -/
structure Resolved where
  cost : ℚ
  description : String
  paid_by : PyVal
  owed_by : List PyVal
  shares : ShareMap
  currency_code : String
  deriving DecidableEq, Repr

/-- Lines 345-359 of `normalize_expense` (the share reconciliation step): if
the requesting user is absent from `owed_by`, add them with the remaining
amount (failing when the explicit shares already exceed the cost); otherwise
adjust the requesting user's share when the share total misses the cost by
more than `0.01`. -/
def reconcile (cost : ℚ) (self_user_id : Int) (owed_by : List PyVal)
    (shares : ShareMap) : Except NormError (List PyVal × ShareMap) :=
  if PyVal.int self_user_id ∈ owed_by then
    let total := sumVals shares
    if |total - cost| > 1/100 then
      .ok (owed_by,
        dset shares (toString self_user_id)
          ((dget shares (toString self_user_id)).getD 0 + (cost - total)))
    else .ok (owed_by, shares)
  else
    let remaining := cost - sumVals shares
    if remaining < 0 then .error .sharesExceedCost
    else .ok (owed_by ++ [PyVal.int self_user_id],
      dset shares (toString self_user_id) remaining)

/-- The tail of `normalize_expense` after the participant loop: the amount
check, the reconciliation step and the assembly of the returned dict. -/
def finishExpense (d : Draft) (paid_by : PyVal) (owed_by : List PyVal)
    (shares : ShareMap) (self_user_id : Int) : Except NormError Resolved :=
  match d.amount with
  | none => .error .missingAmount
  | some cost =>
    match reconcile cost self_user_id owed_by shares with
    | .error e => .error e
    | .ok (owed', shares') =>
      .ok { cost := cost
            description := d.description.getD ""
            paid_by := paid_by
            owed_by := owed'
            shares := shares'
            currency_code := d.currency.getD "INR" }

/-- Truthiness of the `chat_id` argument (`if unknown_friend and chat_id:`). -/
def chatTruthy : Option String → Bool
  | some s => s ≠ ""
  | none => false

/-- Model of `normalize_expense(parsed, friends, self_user_id, self_name, chat_id,
allow_fake_id)` from `app/main.py` lines 302-367. `none` for `parsed` models
a falsy or non-dict extraction result. -/
def normalize_expense (parsed : Option Draft) (friends : List Friend)
    (self_user_id : Int) (self_name : Option String) (chat_id : Option String)
    (allow_fake_id : Bool) : Except NormError Resolved :=
  match parsed with
  | none => .error .malformedDraft
  | some d =>
    match d.payer with
    | none => .error .missingPayer
    | some payer_name =>
      match match_name_to_user_id payer_name friends (some self_user_id) self_name with
      | none => .error (.unresolvedPayer payer_name)
      | some paid_by =>
        match partLoop friends self_user_id self_name allow_fake_id d.participants [] [] with
        | .nameMissing => .error .missingParticipantName
        | .finished owed shares unk =>
          match unk with
          | some u =>
            if pyTruthy u ∧ chatTruthy chat_id then .error (.pendingNewFriend u)
            else finishExpense d paid_by owed shares self_user_id
          | none => finishExpense d paid_by owed shares self_user_id


/-- Decidable equality for `Except`, needed to evaluate run results. -/
instance {ε α : Type} [DecidableEq ε] [DecidableEq α] : DecidableEq (Except ε α) := fun x y =>
  match x, y with
  | .ok a, .ok b =>
    if h : a = b then isTrue (congrArg Except.ok h)
    else isFalse (fun hc => h (Except.ok.inj hc))
  | .error a, .error b =>
    if h : a = b then isTrue (congrArg Except.error h)
    else isFalse (fun hc => h (Except.error.inj hc))
  | .ok _, .error _ => isFalse (fun hc => Except.noConfusion hc)
  | .error _, .ok _ => isFalse (fun hc => Except.noConfusion hc)

/-- Python `round(x, 2)` on the exact-rational model (rounds to cents;
Python's float banker's rounding differs only at exact half-cent ties, which
do not occur at any input evaluated below). -/
def round2 (q : ℚ) : ℚ := (round (q * 100) : ℤ) / 100

/-- Lines 236-244 of `create_splitwise_expense`: compute the share sum over
`owed_by` (absent keys count as 0), and when it misses the cost by more than
`0.01` push the rounded difference onto the last participant's share. -/
def fixShares (cost : ℚ) (owed_by : List PyVal) (shares : ShareMap) : ShareMap :=
  let share_sum := (owed_by.map (fun uid => (dget shares (pyStr uid)).getD 0)).sum
  let diff := round2 (cost - share_sum)
  if |diff| > 1/100 ∧ owed_by ≠ [] then
    match owed_by.getLast? with
    | some last =>
      dset shares (pyStr last) (round2 ((dget shares (pyStr last)).getD 0 + diff))
    | none => shares
  else shares

/-- Lines 254-258 of `create_splitwise_expense`: the owed share submitted for
a participant is their entry in `shares`, or the equal split
`cost / len(owed_by)` when they have none. -/
def owedShareOf (cost : ℚ) (owed_by : List PyVal) (shares : ShareMap)
    (uid : PyVal) : ℚ :=
  match dget shares (pyStr uid) with
  | some sh => sh
  | none => cost / (owed_by.length : ℚ)

/-- Sum of the per-participant owed shares that `create_splitwise_expense`
submits to the ledger for a resolved expense (each formatted to 2 decimals). -/
def submittedOwedSum (r : Resolved) : ℚ :=
  let shares := fixShares r.cost r.owed_by r.shares
  (r.owed_by.map (fun uid => round2 (owedShareOf r.cost r.owed_by shares uid))).sum

set_option allowUnsafeReducibility true in
attribute [semireducible] Rat.add Rat.sub Rat.mul Rat.inv

/-- Scenario A draft: `{amount:500, payer:"me",
participants:[{name:"John", share:null}]}`. -/
def draftA : Draft :=
  { payer := some (.str "me")
    participants := [{ name := some (some (.str "John")), share := none, fakeId := none }]
    amount := some 500
    description := none
    currency := none }

/-- Scenario roster: the single friend John with id 67890. -/
def roster1 : List Friend := [⟨.int 67890, some "John", some "Doe"⟩]

/-- The Pending Resolution stored in `pending_new_friend[chat_id]` when
`normalize_expense` hits an unresolvable participant name (lines 332-341). -/
structure Pending where
  friend_name : PyVal
  parsed : Draft
  friends : List Friend
  self_user_id : Int
  self_name : Option String
  deriving DecidableEq, Repr

/-- Observable outcome of processing one inbound message while a Pending
Resolution exists for the conversation (webhook lines 401-442): whether the
pending entry was deleted before the handler finished, whether an uncaught
exception escaped the handler, and the expense submitted to the ledger, if
any. -/
structure PendingStep where
  deleted : Bool
  crashed : Bool
  submitted : Option Resolved
  deriving DecidableEq, Repr

/-- The name-substitution loop of the webhook retry
(`for part in parsed["participants"]: if part["name"] == pending["friend_name"]: ...`).
`part["name"]` raises `KeyError` when the `"name"` key is absent, which is an
uncaught exception in the handler; matching entries get the replacement name
and, in the new-friend flow, the synthetic id. -/
def substNames (target : PyVal) (repl : PyVal) (fake : Option PyVal) :
    List DraftPart → Except Unit (List DraftPart)
  | [] => .ok []
  | p :: ps =>
    match p.name with
    | none => .error ()
    | some v =>
      let p' := if v = some target then
          { p with name := some (some repl),
                   fakeId := match fake with | some fid => some fid | none => p.fakeId }
        else p
      match substNames target repl fake ps with
      | .error e => .error e
      | .ok ps' => .ok (p' :: ps')

/-- One step of the Unknown-Participant Resolution Flow: the webhook branch
taken when `chat_id in pending_new_friend` (lines 401-442). `submit`
abstracts `create_splitwise_expense` (`true` = ledger accepted, `false` = it
raised; either way the exception is caught by the surrounding `try`). -/
def handlePendingReply (p : Pending) (text : String) (submit : Resolved → Bool) :
    PendingStep :=
  let reply := pyStrip text
  if pyLower reply = "no" ∨ pyLower reply = "n" then
    { deleted := true, crashed := false, submitted := none }
  else
    match match_name_to_user_id (.str reply) p.friends (some p.self_user_id) p.self_name with
    | some _ =>
      match substNames p.friend_name (.str reply) none p.parsed.participants with
      | .error _ => { deleted := false, crashed := true, submitted := none }
      | .ok ps' =>
        match normalize_expense (some { p.parsed with participants := ps' })
            p.friends p.self_user_id p.self_name none false with
        | .error _ => { deleted := true, crashed := false, submitted := none }
        | .ok r =>
          if submit r then { deleted := true, crashed := false, submitted := some r }
          else { deleted := true, crashed := false, submitted := none }
    | none =>
      let fake : PyVal := .str ("new:" ++ reply)
      match substNames p.friend_name (.str reply) (some fake) p.parsed.participants with
      | .error _ => { deleted := false, crashed := true, submitted := none }
      | .ok ps' =>
        match normalize_expense (some { p.parsed with participants := ps' })
            (p.friends ++ [⟨fake, some reply, none⟩]) p.self_user_id p.self_name none true with
        | .error _ => { deleted := true, crashed := false, submitted := none }
        | .ok r =>
          if submit r then { deleted := true, crashed := false, submitted := some r }
          else { deleted := true, crashed := false, submitted := none }

/-- A reachable Pending Resolution whose captured draft has a participant
entry without a `"name"` key (the loop broke on "Bobb" before examining it). -/
def pendingC : Pending :=
  { friend_name := .str "Bobb"
    parsed := { payer := some (.str "me")
                participants := [⟨some (some (.str "Bobb")), some 250, none⟩,
                                 ⟨none, some 250, none⟩]
                amount := some 500, description := none, currency := none }
    friends := roster1
    self_user_id := 12345
    self_name := some "TestUser" }

/-- The Resolved Expense the code actually produces on Scenario A (cost 500,
payer "me", John with a null share, requesting user 12345). -/
def resA : Resolved :=
  { cost := 500, description := "", paid_by := .int 12345,
    owed_by := [.int 67890, .int 12345], shares := [("12345", 500)],
    currency_code := "INR" }

theorem dget_dset_self (m : ShareMap) (k : String) (v : ℚ) :
    dget (dset m k v) k = some v := by
  induction m with
  | nil => simp [dset, dget]
  | cons p rest ih =>
    obtain ⟨k', v'⟩ := p
    by_cases h : k' = k
    · subst h; simp [dset, dget]
    · simp [dset, dget, h, ih]

theorem dget_dset_ne (m : ShareMap) (k : String) (v : ℚ) (k' : String)
    (h : k' ≠ k) : dget (dset m k v) k' = dget m k' := by
  have hkk : ¬(k = k') := fun hc => h hc.symm
  induction m with
  | nil =>
    simp only [dset, dget]
    exact if_neg hkk
  | cons p rest ih =>
    obtain ⟨k'', v''⟩ := p
    by_cases hk : k'' = k
    · subst hk
      simp only [dset, if_pos rfl, dget]
      rw [if_neg hkk, if_neg hkk]
    · simp only [dset, if_neg hk, dget]
      by_cases hq : k'' = k'
      · simp [hq]
      · simp [hq, ih]

theorem sumVals_cons (a : String × ℚ) (rest : ShareMap) :
    sumVals (a :: rest) = a.2 + sumVals rest := by
  simp [sumVals]

theorem sumVals_dset (m : ShareMap) (k : String) (v : ℚ) :
    sumVals (dset m k v) = sumVals m - (dget m k).getD 0 + v := by
  induction m with
  | nil => simp [dset, dget, sumVals]
  | cons p rest ih =>
    obtain ⟨k', v'⟩ := p
    by_cases h : k' = k
    · subst h
      simp [dset, dget, sumVals_cons]
      ring
    · simp only [dset, if_neg h, dget, if_neg h, sumVals_cons, ih]
      ring

theorem subList_nil (hay : List Char) : subList [] hay = true := by
  cases hay <;> rfl

theorem pyLower_eq_empty {t : String} (h : pyLower t = "") : t = "" := by
  have hd : (pyLower t).data = ("" : String).data := congrArg String.data h
  have hmap : t.data.map Char.toLower = [] := hd
  have hnil : t.data = [] := List.map_eq_nil_iff.mp hmap
  cases t
  simpa using congrArg String.mk hnil

theorem empty_not_mem_selfNames (sn : Option String) : "" ∉ selfNames sn := by
  match sn with
  | none => decide
  | some t =>
    by_cases ht : t = ""
    · subst ht; decide
    · show "" ∉ ["me", "mine", "self", "i"] ++ (if t = "" then [] else [pyLower t])
      rw [if_neg ht]
      intro hmem
      rcases List.mem_append.mp hmem with hbase | hlow
      · revert hbase; decide
      · exact ht (pyLower_eq_empty ((List.mem_singleton.mp hlow).symm))

theorem findFriendById_mem (friends : List Friend) (n : Int)
    (h : PyVal.int n ∈ friends.map Friend.id) :
    findFriendById friends n = some (.int n) := by
  induction friends with
  | nil => simp at h
  | cons f fs ih =>
    by_cases hf : f.id = .int n
    · simp [findFriendById, hf]
    · rcases List.mem_map.mp h with ⟨g, hg, hgid⟩
      rcases List.mem_cons.mp hg with rfl | hgs
      · exact absurd hgid hf
      · simp only [findFriendById, if_neg hf]
        exact ih (List.mem_map.mpr ⟨g, hgs, hgid⟩)

theorem substNames_no_error (target repl : PyVal) (fake : Option PyVal)
    (ps : List DraftPart) (h : ∀ part ∈ ps, part.name ≠ none) (e : Unit) :
    substNames target repl fake ps ≠ .error e := by
  induction ps with
  | nil => intro hc; exact Except.noConfusion hc
  | cons p rest ih =>
    intro hc
    have hp : p.name ≠ none := h p (List.mem_cons_self p rest)
    obtain ⟨v, hv⟩ := Option.ne_none_iff_exists'.mp hp
    cases hrest : substNames target repl fake rest with
    | error e' => exact ih (fun q hq => h q (List.mem_cons_of_mem p hq)) hrest
    | ok ps' =>
      simp only [substNames, hv, hrest] at hc
      exact Except.noConfusion hc

theorem normalize_reaches_finish (d : Draft) (friends : List Friend) (self : Int)
    (sn : Option String) (cid : Option String) (allow : Bool) (pn pid : PyVal)
    (owed : List PyVal) (shares : ShareMap)
    (hp : d.payer = some pn)
    (hpr : match_name_to_user_id pn friends (some self) sn = some pid)
    (hl : partLoop friends self sn allow d.participants [] [] = .finished owed shares none) :
    normalize_expense (some d) friends self sn cid allow =
      finishExpense d pid owed shares self := by
  simp only [normalize_expense, hp, hpr, hl]

/-- C8 (amended): on integer inputs the Identity Resolver is idempotent: an
integer that is the id of a roster member, or that equals a nonzero
requesting-user id, is returned unchanged. (String placeholder ids and a
requesting-user id of `0` are not covered; see the counterexample.) -/
theorem claim_C8_idempotent_int_ids (friends : List Friend) (su : Option Int)
    (sn : Option String) (n : Int)
    (h : PyVal.int n ∈ friends.map Friend.id ∨ (su = some n ∧ n ≠ 0)) :
    match_name_to_user_id (.int n) friends su sn = some (.int n) := by
  simp only [match_name_to_user_id]
  by_cases hc : selfIdTruthy su = true ∧ su = some n
  · rw [if_pos hc]
  · rw [if_neg hc]
    rcases h with hmem | ⟨hsu, hn0⟩
    · exact findFriendById_mem friends n hmem
    · exact absurd ⟨by rw [hsu]; simp [selfIdTruthy, hn0], hsu⟩ hc

/-- C8 counterexample: the claim as stated is false. A string id that is the
id of a roster member (the placeholder `"new:Charlie"`) resolves to `none`,
not to itself; and an input equal to a requesting-user id of `0` also
resolves to `none` (falsy truthiness check). -/
theorem claim_C8_counterexample :
    match_name_to_user_id (.str "new:Charlie")
      [⟨.str "new:Charlie", some "Charlie", none⟩] (some 12345) (some "TestUser") = none ∧
    match_name_to_user_id (.int 0) [] (some 0) none = none := by
  decide

/-- C8 witness: concrete instances of the amended idempotence theorem. -/
theorem claim_C8_witness :
    match_name_to_user_id (.int 67890) roster1 (some 12345) (some "TestUser") =
      some (.int 67890) ∧
    match_name_to_user_id (.int 12345) roster1 (some 12345) (some "TestUser") =
      some (.int 12345) :=
  ⟨claim_C8_idempotent_int_ids roster1 (some 12345) (some "TestUser") 67890
      (Or.inl (by decide)),
   claim_C8_idempotent_int_ids roster1 (some 12345) (some "TestUser") 12345
      (Or.inr ⟨rfl, by decide⟩)⟩

/-- C9: for every non-empty roster, an input name that lowercases and strips
to the empty string resolves to the id of the first roster member (the empty
string is a substring of every name), never to `NOT_FOUND`. The claim's side
conditions hold automatically: the empty string is never a self-reference
word and never a truthy requesting-user name. -/
theorem claim_C9_empty_name_first_friend (f : Friend) (fs : List Friend)
    (su : Option Int) (sn : Option String) (s : String)
    (hs : pyStrip (pyLower s) = "") :
    match_name_to_user_id (.str s) (f :: fs) su sn = some f.id := by
  simp only [match_name_to_user_id, hs]
  have h1 : ¬(selfIdTruthy su = true ∧ "" ∈ selfNames sn) :=
    fun hc => empty_not_mem_selfNames sn hc.2
  have h2 : ¬(selfNameTruthy sn = true ∧ some "" = Option.map pyLower sn) := by
    rintro ⟨ht, he⟩
    cases sn with
    | none => simp [selfNameTruthy] at ht
    | some t =>
      have hl : pyLower t = "" := (Option.some.inj he).symm
      have ht' : t = "" := pyLower_eq_empty hl
      rw [ht'] at ht
      simp [selfNameTruthy] at ht
  rw [if_neg h1, if_neg h2]
  have hd : ("" : String).data = ([] : List Char) := rfl
  have hcond : (strIn "" (pyLower (f.first_name.getD "")) ||
      strIn "" (pyLower (f.last_name.getD ""))) = true := by
    simp only [strIn, hd, subList_nil, Bool.or_self]
  unfold findFriendByName
  rw [if_pos hcond]

/-- C9 witness: a whitespace-only name resolves to the first roster member. -/
theorem claim_C9_witness :
    match_name_to_user_id (.str "   ") roster1 (some 12345) (some "TestUser") =
      some (.int 67890) :=
  claim_C9_empty_name_first_friend ⟨.int 67890, some "John", some "Doe"⟩ []
    (some 12345) (some "TestUser") "   " (by decide)

/-- C4: for every draft whose participant loop resolves (yielding `owed` and
explicit `shares`) with the requesting user absent from the participants and
the explicit shares summing to strictly more than the cost, normalization
fails with `SharesExceedCost` and no Resolved Expense is built. -/
theorem claim_C4_shares_exceed_cost (d : Draft) (friends : List Friend)
    (self : Int) (sn : Option String) (cid : Option String) (allow : Bool)
    (pn pid : PyVal) (owed : List PyVal) (shares : ShareMap) (cost : ℚ)
    (hp : d.payer = some pn)
    (hpr : match_name_to_user_id pn friends (some self) sn = some pid)
    (hl : partLoop friends self sn allow d.participants [] [] = .finished owed shares none)
    (ha : d.amount = some cost)
    (hni : PyVal.int self ∉ owed)
    (hgt : cost < sumVals shares) :
    normalize_expense (some d) friends self sn cid allow = .error .sharesExceedCost := by
  rw [normalize_reaches_finish d friends self sn cid allow pn pid owed shares hp hpr hl]
  simp only [finishExpense, ha]
  have hrec : reconcile cost self owed shares = .error .sharesExceedCost := by
    simp only [reconcile, if_neg hni]
    rw [if_pos (by linarith : cost - sumVals shares < 0)]
  simp only [hrec]

/-- C4 witness: cost 100 with a single explicit share of 150 and the
requesting user absent fails with `SharesExceedCost`. -/
theorem claim_C4_witness :
    normalize_expense
      (some { payer := some (.str "me")
              participants := [⟨some (some (.str "John")), some 150, none⟩]
              amount := some 100, description := none, currency := none })
      roster1 12345 (some "TestUser") (some "99") false = .error .sharesExceedCost :=
  claim_C4_shares_exceed_cost _ roster1 12345 (some "TestUser") (some "99") false
    (.str "me") (.int 12345) [.int 67890] [("67890", 150)] 100
    rfl (by decide) (by decide) rfl (by decide) (by norm_num [sumVals])

theorem normalize_self_absent_ok (d : Draft) (friends : List Friend)
    (self : Int) (sn : Option String) (cid : Option String) (allow : Bool)
    (pn pid : PyVal) (owed : List PyVal) (shares : ShareMap) (cost : ℚ)
    (hp : d.payer = some pn)
    (hpr : match_name_to_user_id pn friends (some self) sn = some pid)
    (hl : partLoop friends self sn allow d.participants [] [] = .finished owed shares none)
    (ha : d.amount = some cost)
    (hni : PyVal.int self ∉ owed)
    (hle : sumVals shares ≤ cost) :
    normalize_expense (some d) friends self sn cid allow =
      .ok { cost := cost
            description := d.description.getD ""
            paid_by := pid
            owed_by := owed ++ [.int self]
            shares := dset shares (toString self) (cost - sumVals shares)
            currency_code := d.currency.getD "INR" } := by
  rw [normalize_reaches_finish d friends self sn cid allow pn pid owed shares hp hpr hl]
  simp only [finishExpense, ha]
  have hrec : reconcile cost self owed shares =
      .ok (owed ++ [.int self], dset shares (toString self) (cost - sumVals shares)) := by
    simp only [reconcile, if_neg hni]
    rw [if_neg (by linarith : ¬(cost - sumVals shares < 0))]
  simp only [hrec]

/-- C5: for every draft whose participant loop resolves with the requesting
user absent and the explicit shares summing to at most the cost, the
requesting user is appended to the participants with share equal to the cost
minus the sum of the explicit shares. -/
theorem claim_C5_self_added_remaining (d : Draft) (friends : List Friend)
    (self : Int) (sn : Option String) (cid : Option String) (allow : Bool)
    (pn pid : PyVal) (owed : List PyVal) (shares : ShareMap) (cost : ℚ)
    (hp : d.payer = some pn)
    (hpr : match_name_to_user_id pn friends (some self) sn = some pid)
    (hl : partLoop friends self sn allow d.participants [] [] = .finished owed shares none)
    (ha : d.amount = some cost)
    (hni : PyVal.int self ∉ owed)
    (hle : sumVals shares ≤ cost) :
    normalize_expense (some d) friends self sn cid allow =
      .ok { cost := cost
            description := d.description.getD ""
            paid_by := pid
            owed_by := owed ++ [.int self]
            shares := dset shares (toString self) (cost - sumVals shares)
            currency_code := d.currency.getD "INR" } ∧
    dget (dset shares (toString self) (cost - sumVals shares)) (toString self) =
      some (cost - sumVals shares) :=
  ⟨normalize_self_absent_ok d friends self sn cid allow pn pid owed shares cost
      hp hpr hl ha hni hle,
   dget_dset_self shares (toString self) (cost - sumVals shares)⟩

/-- C5 witness (Scenario B): cost 1000 with one explicit share of 600 and
requesting user 12345 absent adds the requesting user with share 400. -/
theorem claim_C5_witness :
    normalize_expense
      (some { payer := some (.str "me")
              participants := [⟨some (some (.str "John")), some 600, none⟩]
              amount := some 1000, description := none, currency := none })
      roster1 12345 (some "TestUser") (some "99") false =
      .ok { cost := 1000, description := "", paid_by := .int 12345,
            owed_by := [.int 67890, .int 12345],
            shares := [("67890", 600), ("12345", 400)], currency_code := "INR" } ∧
    dget [("67890", 600), ("12345", 400)] "12345" = some 400 := by
  have h := claim_C5_self_added_remaining
    { payer := some (.str "me")
      participants := [⟨some (some (.str "John")), some 600, none⟩]
      amount := some 1000, description := none, currency := none }
    roster1 12345 (some "TestUser") (some "99") false
    (.str "me") (.int 12345) [.int 67890] [("67890", 600)] 1000
    rfl (by decide) (by decide) rfl (by decide) (by norm_num [sumVals])
  refine ⟨?_, by decide⟩
  have h1 := h.1
  convert h1 using 2

/-- C10: when the requesting user is absent and the explicit shares sum to
exactly the cost, `SharesExceedCost` is not raised (the failing condition is
strict) and the requesting user is still appended with a share of exactly 0. -/
theorem claim_C10_exact_shares_zero_self (d : Draft) (friends : List Friend)
    (self : Int) (sn : Option String) (cid : Option String) (allow : Bool)
    (pn pid : PyVal) (owed : List PyVal) (shares : ShareMap) (cost : ℚ)
    (hp : d.payer = some pn)
    (hpr : match_name_to_user_id pn friends (some self) sn = some pid)
    (hl : partLoop friends self sn allow d.participants [] [] = .finished owed shares none)
    (ha : d.amount = some cost)
    (hni : PyVal.int self ∉ owed)
    (heq : sumVals shares = cost) :
    normalize_expense (some d) friends self sn cid allow =
      .ok { cost := cost
            description := d.description.getD ""
            paid_by := pid
            owed_by := owed ++ [.int self]
            shares := dset shares (toString self) 0
            currency_code := d.currency.getD "INR" } ∧
    dget (dset shares (toString self) 0) (toString self) = some 0 := by
  have h := normalize_self_absent_ok d friends self sn cid allow pn pid owed shares
    cost hp hpr hl ha hni (le_of_eq heq)
  rw [heq, sub_self] at h
  exact ⟨h, dget_dset_self shares (toString self) 0⟩

/-- C10 witness: cost 100 fully covered by an explicit share of 100 still
adds the requesting user, with share exactly 0, and does not fail. -/
theorem claim_C10_witness :
    normalize_expense
      (some { payer := some (.str "me")
              participants := [⟨some (some (.str "John")), some 100, none⟩]
              amount := some 100, description := none, currency := none })
      roster1 12345 (some "TestUser") (some "99") false =
      .ok { cost := 100, description := "", paid_by := .int 12345,
            owed_by := [.int 67890, .int 12345],
            shares := [("67890", 100), ("12345", 0)], currency_code := "INR" } ∧
    dget [("67890", 100), ("12345", 0)] "12345" = some 0 := by
  have h := claim_C10_exact_shares_zero_self
    { payer := some (.str "me")
      participants := [⟨some (some (.str "John")), some 100, none⟩]
      amount := some 100, description := none, currency := none }
    roster1 12345 (some "TestUser") (some "99") false
    (.str "me") (.int 12345) [.int 67890] [("67890", 100)] 100
    rfl (by decide) (by decide) rfl (by decide) (by norm_num [sumVals])
  refine ⟨?_, by decide⟩
  have h1 := h.1
  convert h1 using 2

/-- C6: when the requesting user is already among the resolved participants
and the share total misses the cost by more than 0.01, the requesting user's
share is adjusted by adding `cost - total`, making the share sum exactly the
cost; every other key of the share map is unchanged. -/
theorem claim_C6_self_absorbs_diff (d : Draft) (friends : List Friend)
    (self : Int) (sn : Option String) (cid : Option String) (allow : Bool)
    (pn pid : PyVal) (owed : List PyVal) (shares : ShareMap) (cost : ℚ)
    (hp : d.payer = some pn)
    (hpr : match_name_to_user_id pn friends (some self) sn = some pid)
    (hl : partLoop friends self sn allow d.participants [] [] = .finished owed shares none)
    (ha : d.amount = some cost)
    (hin : PyVal.int self ∈ owed)
    (hdiff : |sumVals shares - cost| > 1/100) :
    normalize_expense (some d) friends self sn cid allow =
      .ok { cost := cost
            description := d.description.getD ""
            paid_by := pid
            owed_by := owed
            shares := dset shares (toString self)
              ((dget shares (toString self)).getD 0 + (cost - sumVals shares))
            currency_code := d.currency.getD "INR" } ∧
    sumVals (dset shares (toString self)
      ((dget shares (toString self)).getD 0 + (cost - sumVals shares))) = cost ∧
    ∀ k, k ≠ toString self →
      dget (dset shares (toString self)
        ((dget shares (toString self)).getD 0 + (cost - sumVals shares))) k =
      dget shares k := by
  refine ⟨?_, ?_, fun k hk => dget_dset_ne shares (toString self) _ k hk⟩
  · rw [normalize_reaches_finish d friends self sn cid allow pn pid owed shares hp hpr hl]
    simp only [finishExpense, ha]
    have hrec : reconcile cost self owed shares =
        .ok (owed, dset shares (toString self)
          ((dget shares (toString self)).getD 0 + (cost - sumVals shares))) := by
      simp only [reconcile, if_pos hin]
      rw [if_pos hdiff]
    simp only [hrec]
  · rw [sumVals_dset]
    ring

/-- C6 witness: cost 100 with shares {self 10, other 50} (total 60) gets the
requesting user's share bumped to 50, making the sum exactly 100, with the
other participant's entry untouched. -/
theorem claim_C6_witness :
    normalize_expense
      (some { payer := some (.str "me")
              participants := [⟨some (some (.str "me")), some 10, none⟩,
                               ⟨some (some (.str "John")), some 50, none⟩]
              amount := some 100, description := none, currency := none })
      roster1 12345 (some "TestUser") (some "99") false =
      .ok { cost := 100, description := "", paid_by := .int 12345,
            owed_by := [.int 12345, .int 67890],
            shares := [("12345", 50), ("67890", 50)], currency_code := "INR" } ∧
    sumVals [("12345", (50 : ℚ)), ("67890", 50)] = 100 ∧
    dget [("12345", (50 : ℚ)), ("67890", 50)] "67890" = some 50 := by
  have h := claim_C6_self_absorbs_diff
    { payer := some (.str "me")
      participants := [⟨some (some (.str "me")), some 10, none⟩,
                       ⟨some (some (.str "John")), some 50, none⟩]
      amount := some 100, description := none, currency := none }
    roster1 12345 (some "TestUser") (some "99") false
    (.str "me") (.int 12345) [.int 12345, .int 67890]
    [("12345", 10), ("67890", 50)] 100
    rfl (by decide) (by decide) rfl (by decide) (by norm_num [sumVals])
  refine ⟨?_, by norm_num [sumVals], by decide⟩
  have h1 := h.1
  convert h1 using 2

/-- C3 (amended): the checks of `normalize_expense` short-circuit in the
order: MalformedDraft, MissingPayer, payer resolution (UnresolvedPayer),
per-participant MissingParticipantName / participant resolution, and only
then MissingAmount; a draft missing its amount whose payer and participants
all resolve yields MissingAmount with no share reconciliation performed. -/
theorem claim_C3_validation_order :
    (∀ (friends : List Friend) (self : Int) (sn cid : Option String) (allow : Bool),
      normalize_expense none friends self sn cid allow = .error .malformedDraft) ∧
    (∀ (d : Draft) (friends : List Friend) (self : Int) (sn cid : Option String)
      (allow : Bool), d.payer = none →
      normalize_expense (some d) friends self sn cid allow = .error .missingPayer) ∧
    (∀ (d : Draft) (friends : List Friend) (self : Int) (sn cid : Option String)
      (allow : Bool) (pn : PyVal), d.payer = some pn →
      match_name_to_user_id pn friends (some self) sn = none →
      normalize_expense (some d) friends self sn cid allow = .error (.unresolvedPayer pn)) ∧
    (∀ (d : Draft) (friends : List Friend) (self : Int) (sn cid : Option String)
      (allow : Bool) (pn pid : PyVal), d.payer = some pn →
      match_name_to_user_id pn friends (some self) sn = some pid →
      partLoop friends self sn allow d.participants [] [] = .nameMissing →
      normalize_expense (some d) friends self sn cid allow = .error .missingParticipantName) ∧
    (∀ (d : Draft) (friends : List Friend) (self : Int) (sn cid : Option String)
      (allow : Bool) (pn pid : PyVal) (owed : List PyVal) (shares : ShareMap),
      d.payer = some pn →
      match_name_to_user_id pn friends (some self) sn = some pid →
      partLoop friends self sn allow d.participants [] [] = .finished owed shares none →
      d.amount = none →
      normalize_expense (some d) friends self sn cid allow = .error .missingAmount) := by
  refine ⟨?_, ?_, ?_, ?_, ?_⟩
  · intro friends self sn cid allow
    rfl
  · intro d friends self sn cid allow hp
    simp only [normalize_expense, hp]
  · intro d friends self sn cid allow pn hp hpr
    simp only [normalize_expense, hp, hpr]
  · intro d friends self sn cid allow pn pid hp hpr hl
    simp only [normalize_expense, hp, hpr, hl]
  · intro d friends self sn cid allow pn pid owed shares hp hpr hl ha
    rw [normalize_reaches_finish d friends self sn cid allow pn pid owed shares hp hpr hl]
    simp only [finishExpense, ha]

/-- C3 counterexample: the claim's order (amount before participant names,
and no resolver run for a draft missing its amount) is false. A draft missing
its amount but containing a null participant name fails with
MissingParticipantName, and a draft missing its amount with an unresolvable
payer fails with UnresolvedPayer — in both cases the resolver/participant
checks decide the outcome, not MissingAmount. -/
theorem claim_C3_counterexample :
    normalize_expense
      (some { payer := some (.str "me")
              participants := [⟨some none, none, none⟩]
              amount := none, description := none, currency := none })
      [] 12345 (some "TestUser") (some "99") false = .error .missingParticipantName ∧
    normalize_expense
      (some { payer := some (.str "Zed"), participants := []
              amount := none, description := none, currency := none })
      [] 12345 (some "TestUser") (some "99") false =
      .error (.unresolvedPayer (.str "Zed")) := by
  decide

/-- C3 witness: a draft missing only its amount (payer and participants
resolve) fails with MissingAmount. -/
theorem claim_C3_witness :
    normalize_expense
      (some { payer := some (.str "me")
              participants := [⟨some (some (.str "John")), none, none⟩]
              amount := none, description := none, currency := none })
      roster1 12345 (some "TestUser") (some "99") false = .error .missingAmount :=
  claim_C3_validation_order.2.2.2.2
    { payer := some (.str "me")
      participants := [⟨some (some (.str "John")), none, none⟩]
      amount := none, description := none, currency := none }
    roster1 12345 (some "TestUser") (some "99") false
    (.str "me") (.int 12345) [.int 67890] []
    rfl (by decide) (by decide) rfl

/-- C7 (amended): while a Pending Resolution exists, processing the next
inbound message deletes it in the cancellation, corrected-match and
new-placeholder outcomes, including when normalization or ledger submission
raises during the retry — provided every participant entry of the captured
draft has a `"name"` key. (Without that proviso the substitution loop raises
an uncaught `KeyError` before the deletion; see the counterexample.) -/
theorem claim_C7_pending_deleted (p : Pending) (text : String)
    (submit : Resolved → Bool)
    (hnames : ∀ part ∈ p.parsed.participants, part.name ≠ none) :
    (handlePendingReply p text submit).deleted = true := by
  simp only [handlePendingReply]
  by_cases hno : pyLower (pyStrip text) = "no" ∨ pyLower (pyStrip text) = "n"
  · rw [if_pos hno]
  · rw [if_neg hno]
    cases hm : match_name_to_user_id (.str (pyStrip text)) p.friends
        (some p.self_user_id) p.self_name with
    | some mid =>
      simp only [hm]
      cases hs : substNames p.friend_name (.str (pyStrip text)) none
          p.parsed.participants with
      | error e =>
        exact absurd hs (substNames_no_error _ _ _ _ hnames e)
      | ok ps' =>
        simp only [hs]
        cases hn : normalize_expense (some { p.parsed with participants := ps' })
            p.friends p.self_user_id p.self_name none false with
        | error e => simp [hn]
        | ok r =>
          simp only [hn]
          cases hsub : submit r <;> simp [hsub]
    | none =>
      simp only [hm]
      cases hs : substNames p.friend_name (.str (pyStrip text))
          (some (.str ("new:" ++ pyStrip text))) p.parsed.participants with
      | error e =>
        exact absurd hs (substNames_no_error _ _ _ _ hnames e)
      | ok ps' =>
        simp only [hs]
        cases hn : normalize_expense (some { p.parsed with participants := ps' })
            (p.friends ++ [⟨.str ("new:" ++ pyStrip text), some (pyStrip text), none⟩])
            p.self_user_id p.self_name none true with
        | error e => simp [hn]
        | ok r =>
          simp only [hn]
          cases hsub : submit r <;> simp [hsub]

/-- C7 counterexample: the claim as stated is false. On the pending state
`pendingC` (shown reachable by the third conjunct: normalization on its draft
raises the pending-new-friend signal on "Bobb"), the corrected-match reply
"John" crashes in the name-substitution loop (`part["name"]` raises
`KeyError` on the nameless entry) and the Pending Resolution is NOT
deleted. -/
theorem claim_C7_counterexample :
    (handlePendingReply pendingC "John" (fun _ => true)).deleted = false ∧
    (handlePendingReply pendingC "John" (fun _ => true)).crashed = true ∧
    normalize_expense (some pendingC.parsed) pendingC.friends 12345
      (some "TestUser") (some "99") false = .error (.pendingNewFriend (.str "Bobb")) := by
  decide

/-- C7 witness: a cancellation reply deletes the pending entry. -/
theorem claim_C7_witness :
    (handlePendingReply
      { friend_name := .str "Bobb", parsed := draftA, friends := roster1,
        self_user_id := 12345, self_name := some "TestUser" }
      "no" (fun _ => true)).deleted = true :=
  claim_C7_pending_deleted
    { friend_name := .str "Bobb", parsed := draftA, friends := roster1,
      self_user_id := 12345, self_name := some "TestUser" }
    "no" (fun _ => true) (by decide)

/-- C1 (code bug): on Scenario A the pipeline violates the sum invariant.
Normalization gives the requesting user the full remainder 500 and leaves
John with no entry in `shares`; submission then defaults John to the equal
split 250, so the submitted owed shares sum to 750 against a cost of 500 —
off by far more than 0.01. -/
theorem claim_C1_sum_invariant_violated :
    normalize_expense (some draftA) roster1 12345 (some "TestUser") (some "99") false =
      .ok resA ∧
    dget resA.shares "67890" = none ∧
    submittedOwedSum resA = 750 ∧
    |submittedOwedSum resA - resA.cost| > 1/100 := by
  decide

/-- C2 (code bug): on Scenario A the code does not produce the claimed equal
split. The requesting user's share is 500 (not 250) and John has no entry in
`shares`; John's 250 appears only as the submission-time equal-split default,
so the submitted shares are {12345: 500, 67890: 250}, not {250, 250}. -/
theorem claim_C2_scenarioA_actual_output :
    normalize_expense (some draftA) roster1 12345 (some "TestUser") (some "99") false =
      .ok resA ∧
    dget resA.shares "12345" = some 500 ∧
    owedShareOf resA.cost resA.owed_by
      (fixShares resA.cost resA.owed_by resA.shares) (.int 67890) = 250 := by
  decide
